import Mathlib

/-
  Verification development for the frontera strategy worker
  (src/frontera/worker/strategy.py).

  The worker's data model and operations are shallowly embedded below.
  External collaborators (message-bus consumer/producer, states backend,
  codec, crawling strategy, reactor) are visible to the worker only through
  calls; those calls are recorded as operations in an explicit trace, and
  the collaborators' own behavior is modelled only at the interface the
  worker exercises.
-/

namespace Frontera

/-- A fingerprint: the opaque content-addressed identity stored under the
`b'fingerprint'` key of a request's `meta` dict.  Modelled as `Nat`. -/
abbrev FP := Nat

/-- A frontier `Request` (also used for responses and links, which carry the
same `meta` keys the worker touches).  `fingerprint` models the optional
`meta[b'fingerprint']` entry and `jid` the optional `meta[b'jid']` entry;
reading an absent key raises `KeyError` in the source, which the embedding
exposes as `none`. -/
structure Request where
  fingerprint : Option FP
  jid : Option Nat
  url : String
deriving DecidableEq

/-- A decoded spider-log message: the tagged tuple yielded by
`self._decoder.decode`, distinguished by its leading tag `msg[0]`. -/
inductive Event where
  | add_seeds (seeds : List Request)
  | page_crawled (response : Request)
  | links_extracted (request : Request) (links : List Request)
  | request_error (request : Request) (error : String)
  | offset (partition : Nat) (off : Nat)
  | unknown (tag : String)
deriving DecidableEq

/-- A raw message from the spider-log consumer, before decoding.  The codec
is an external collaborator; at the interface the worker sees, a message
either decodes to an `Event` or raises `KeyError`/`TypeError`, in which case
the raw bytes are available for the hex dump. -/
inductive RawMessage where
  | malformed (bytes : List Nat)
  | wellFormed (msg : Event)
deriving DecidableEq

/-- `self._decoder.decode(m)`: the codec boundary.  A malformed message
raises (carrying its bytes for the later hex dump), a well-formed one
yields its event. -/
def decode : RawMessage → Except (List Nat) Event
  | RawMessage.malformed bs => Except.error bs
  | RawMessage.wellFormed m => Except.ok m

/-- Argument shape of a states-backend call: the source passes sometimes a
single request object (`update_cache(response)`, `set_states(request)`) and
sometimes a list (`set_states(seeds)`, `update_cache(links)`). -/
inductive Arg where
  | one (r : Request)
  | many (rs : List Request)
deriving DecidableEq

/-- The abstract encoded scoring-log record: the tuple the worker hands to
the external `encode_update_score`. -/
abbrev Encoded := Request × Rat × Bool

/-- One observable call the worker makes on an external collaborator
(states backend, strategy, producer, consumer, logger, reactor). -/
inductive Op where
  | fetch (fps : Finset FP)
  | set_states (a : Arg)
  | update_cache (a : Arg)
  | states_flush
  | strategy_add_seeds (seeds : List Request)
  | strategy_page_crawled (response : Request)
  | strategy_links_extracted (request : Request) (links : List Request)
  | strategy_page_error (request : Request) (error : String)
  | on_unknown_message (e : Event)
  | collect_unknown_message (e : Event)
  | producer_send (key : Option Nat) (payload : Encoded)
  | log_decode_error (hexdump : String)
  | log_exception
  | stop_work_task
  | stop_flush_states_task
  | stop_logging_task
  | strategy_close
  | manager_stop
  | producer_close
  | consumer_close
  | reactor_stop
deriving DecidableEq

/-- `StatesContext`: the per-batch scratch area.  `requests` is
`self._requests` (the "touched" list) and `fingerprints` is
`self._fingerprints` (the "pending_fetch" set). -/
structure StatesContext where
  requests : List Request
  fingerprints : Finset FP
deriving DecidableEq

/-- `StatesContext.to_fetch` on an iterable argument:
`self._fingerprints.update([x.meta[b'fingerprint'] for x in requests])`.
The list comprehension is evaluated in full before `update` runs, so a
request with no `b'fingerprint'` key raises `KeyError` with the set left
unchanged; otherwise all fingerprints are added. -/
def StatesContext.to_fetch_many (ctx : StatesContext) (rs : List Request) :
    Except Unit StatesContext :=
  if rs.all (fun r => r.fingerprint.isSome) then
    Except.ok { ctx with
      fingerprints := ctx.fingerprints ∪ (rs.filterMap Request.fingerprint).toFinset }
  else Except.error ()

/-- `StatesContext.to_fetch` on a single request:
`self._fingerprints.add(requests.meta[b'fingerprint'])`; a missing key
raises `KeyError` before the `add`. -/
def StatesContext.to_fetch_one (ctx : StatesContext) (r : Request) :
    Except Unit StatesContext :=
  match r.fingerprint with
  | some fp => Except.ok { ctx with fingerprints := insert fp ctx.fingerprints }
  | none => Except.error ()

/-- `StatesContext.fetch`: `self._states.fetch(self._fingerprints)` then
`self._fingerprints.clear()`. -/
def StatesContext.fetch (ctx : StatesContext) : StatesContext × List Op :=
  ({ ctx with fingerprints := ∅ }, [Op.fetch ctx.fingerprints])

/-- `StatesContext.release`: `self._states.update_cache(self._requests)`
then `self._requests = []`.  The fingerprint set is not touched. -/
def StatesContext.release (ctx : StatesContext) : StatesContext × List Op :=
  ({ ctx with requests := [] }, [Op.update_cache (Arg.many ctx.requests)])

/-- `StatesContext.flush`: `self._states.flush()`. -/
def StatesContext.ctx_flush (ctx : StatesContext) : StatesContext × List Op :=
  (ctx, [Op.states_flush])

/-- `StatesContext.refresh_and_keep`: `to_fetch(requests)`, `fetch()`,
`self._states.set_states(requests)`, `self._requests.extend(requests)`.
Raises if some request has no fingerprint key. -/
def StatesContext.refresh_and_keep (ctx : StatesContext) (rs : List Request) :
    Except Unit (StatesContext × List Op) :=
  (ctx.to_fetch_many rs).map (fun c1 =>
    let f := c1.fetch
    ({ f.1 with requests := f.1.requests ++ rs },
      f.2 ++ [Op.set_states (Arg.many rs)]))

/-- `Encoder.encode_update_score(request=..., score=..., schedule=...)`.
Modelled boundary: the codec encoder is an external collaborator; its
encoding is modelled as the identity on the argument tuple, which is all
the worker-side contract observes. -/
def encode_update_score (request : Request) (score : Rat) (schedule : Bool) : Encoded :=
  (request, score, schedule)

/-- `UpdateScoreStream.send(request, score, dont_queue)`: encodes
`(request, score, schedule=not dont_queue)` and performs
`self._producer.send(None, encoded)`.  Python defaults are `score=1.0`,
`dont_queue=False`; see `UpdateScoreStream.send_default`. -/
def UpdateScoreStream.send (request : Request) (score : Rat) (dont_queue : Bool) :
    List Op :=
  [Op.producer_send none (encode_update_score request score (!dont_queue))]

/-- `UpdateScoreStream.send(request)` with both Python default arguments
(`score=1.0`, `dont_queue=False`) in force. -/
def UpdateScoreStream.send_default (request : Request) : List Op :=
  UpdateScoreStream.send request 1 false

/-- `UpdateScoreStream.flush`: `pass`. -/
def UpdateScoreStream.flush : List Op := []

/-- The worker's `self.stats` counters.  `last_consumed` and
`last_consumption_run` are absent from the dict until the first `work`
tick, hence `Option`. -/
structure Stats where
  consumed_since_start : Nat
  consumed_add_seeds : Nat
  consumed_page_crawled : Nat
  consumed_links_extracted : Nat
  consumed_request_error : Nat
  last_consumed : Option Nat
  last_consumption_run : Option String
deriving DecidableEq

/-- The external crawling-strategy plug-in, at the interface the worker
exercises: each handler either returns normally or raises (recorded by the
corresponding `_raises` observation), and `finished()` reports whether the
crawl goal is reached. -/
structure Strategy where
  add_seeds_raises : List Request → Bool
  page_crawled_raises : Request → Bool
  links_extracted_raises : Request → List Request → Bool
  page_error_raises : Request → String → Bool
  finished : Bool

/-- `seed.meta[b'jid'] = self.job_id`: stamping a request with the
worker's current job id. -/
def stamp (job_id : Nat) (r : Request) : Request := { r with jid := some job_id }

/-- `BaseStrategyWorker.on_add_seeds`: `states.set_states(seeds)`,
`strategy.add_seeds(seeds)`, `states.update_cache(seeds)`.  Returns the
trace of calls and whether the strategy handler raised (in which case the
final `update_cache` is not reached). -/
def on_add_seeds (strat : Strategy) (seeds : List Request) : List Op × Bool :=
  if strat.add_seeds_raises seeds then
    ([Op.set_states (Arg.many seeds), Op.strategy_add_seeds seeds], true)
  else
    ([Op.set_states (Arg.many seeds), Op.strategy_add_seeds seeds,
      Op.update_cache (Arg.many seeds)], false)

/-- `BaseStrategyWorker.on_page_crawled`: `states.set_states([response])`,
`strategy.page_crawled(response)`, `states.update_cache(response)`. -/
def on_page_crawled (strat : Strategy) (response : Request) : List Op × Bool :=
  if strat.page_crawled_raises response then
    ([Op.set_states (Arg.many [response]), Op.strategy_page_crawled response], true)
  else
    ([Op.set_states (Arg.many [response]), Op.strategy_page_crawled response,
      Op.update_cache (Arg.one response)], false)

/-- `BaseStrategyWorker.on_links_extracted`: `states.set_states(links)`,
`strategy.links_extracted(request, links)`, `states.update_cache(links)`.
Only the links are written back; the request argument is not. -/
def on_links_extracted (strat : Strategy) (request : Request) (links : List Request) :
    List Op × Bool :=
  if strat.links_extracted_raises request links then
    ([Op.set_states (Arg.many links), Op.strategy_links_extracted request links], true)
  else
    ([Op.set_states (Arg.many links), Op.strategy_links_extracted request links,
      Op.update_cache (Arg.many links)], false)

/-- `BaseStrategyWorker.on_request_error`: `states.set_states(request)`,
`strategy.page_error(request, error)`, `states.update_cache(request)`. -/
def on_request_error (strat : Strategy) (request : Request) (error : String) :
    List Op × Bool :=
  if strat.page_error_raises request error then
    ([Op.set_states (Arg.one request), Op.strategy_page_error request error], true)
  else
    ([Op.set_states (Arg.one request), Op.strategy_page_error request error,
      Op.update_cache (Arg.one request)], false)

/-- The per-message body of `BaseStrategyWorker.process_batch`: the jid
staleness filter (`if b'jid' not in meta or meta[b'jid'] != self.job_id:
continue`), seed stamping, handler dispatch, the per-type stats increment,
and the `except Exception` that logs and swallows a raising handler. -/
def process_event (strat : Strategy) (job_id : Nat) (stats : Stats) :
    Event → List Op × Stats
  | Event.add_seeds seeds =>
      let stamped := seeds.map (stamp job_id)
      let h := on_add_seeds strat stamped
      if h.2 then (h.1 ++ [Op.log_exception], stats)
      else (h.1, { stats with consumed_add_seeds := stats.consumed_add_seeds + 1 })
  | Event.page_crawled response =>
      if response.jid == some job_id then
        let h := on_page_crawled strat response
        if h.2 then (h.1 ++ [Op.log_exception], stats)
        else (h.1, { stats with consumed_page_crawled := stats.consumed_page_crawled + 1 })
      else ([], stats)
  | Event.links_extracted request links =>
      if request.jid == some job_id then
        let h := on_links_extracted strat request links
        if h.2 then (h.1 ++ [Op.log_exception], stats)
        else (h.1, { stats with consumed_links_extracted := stats.consumed_links_extracted + 1 })
      else ([], stats)
  | Event.request_error request error =>
      if request.jid == some job_id then
        let h := on_request_error strat request error
        if h.2 then (h.1 ++ [Op.log_exception], stats)
        else (h.1, { stats with consumed_request_error := stats.consumed_request_error + 1 })
      else ([], stats)
  | Event.offset p o => ([Op.on_unknown_message (Event.offset p o)], stats)
  | Event.unknown tag => ([Op.on_unknown_message (Event.unknown tag)], stats)

/-- `BaseStrategyWorker.process_batch`: dispatch every decoded event of the
batch in order, threading the stats counters. -/
def process_batch (strat : Strategy) (job_id : Nat) (stats : Stats) :
    List Event → List Op × Stats
  | [] => ([], stats)
  | e :: rest =>
      let p := process_event strat job_id stats e
      let r := process_batch strat job_id p.2 rest
      (p.1 ++ r.1, r.2)

/-- The `except Exception` surrounding the classification block of
`collect_batch`: a raising `to_fetch` is logged and swallowed, keeping the
scratch state reached so far. -/
def catch_classify (keep : StatesContext) :
    Except Unit StatesContext → StatesContext × List Op
  | Except.ok c => (c, [])
  | Except.error _ => (keep, [Op.log_exception])

/-- The classification block inside `collect_batch` for one decoded
message: enroll the referenced fingerprints via `to_fetch`, ignore
`offset`, route unknown tags to `collect_unknown_message`, and swallow any
exception raised during classification. -/
def classify_message (ctx : StatesContext) : Event → StatesContext × List Op
  | Event.add_seeds seeds => catch_classify ctx (ctx.to_fetch_many seeds)
  | Event.page_crawled response => catch_classify ctx (ctx.to_fetch_one response)
  | Event.links_extracted request links =>
      match ctx.to_fetch_one request with
      | Except.ok c1 => catch_classify c1 (c1.to_fetch_many links)
      | Except.error _ => (ctx, [Op.log_exception])
  | Event.request_error request _ => catch_classify ctx (ctx.to_fetch_one request)
  | Event.offset _ _ => (ctx, [])
  | Event.unknown tag => (ctx, [Op.collect_unknown_message (Event.unknown tag)])

/-- One hex digit, lower case, as produced by `binascii.hexlify`. -/
def hexChar (n : Nat) : Char :=
  if n < 10 then Char.ofNat (48 + n) else Char.ofNat (87 + n)

/-- `binascii.hexlify(m)`: the hex dump of the raw message bytes. -/
def hexlify (bs : List Nat) : String :=
  String.mk (bs.flatMap (fun b => [hexChar (b / 16 % 16), hexChar (b % 16)]))

/-- Result of `BaseStrategyWorker.collect_batch`: the decoded batch, the
consumed count, the scratch state after fingerprint collection, and the
trace of collaborator calls made while collecting. -/
structure CollectResult where
  batch : List Event
  consumed : Nat
  ctx : StatesContext
  trace : List Op
deriving DecidableEq

/-- `BaseStrategyWorker.collect_batch`: for each raw message, decode (on
`KeyError`/`TypeError` log the error with a hex dump and skip), append the
decoded event to the batch, classify it, and — in a `finally` — count it
as consumed either way. -/
def collect_batch (ctx : StatesContext) : List RawMessage → CollectResult
  | [] => ⟨[], 0, ctx, []⟩
  | m :: ms =>
      match decode m with
      | Except.error bs =>
          let r := collect_batch ctx ms
          ⟨r.batch, r.consumed + 1, r.ctx, Op.log_decode_error (hexlify bs) :: r.trace⟩
      | Except.ok msg =>
          let p := classify_message ctx msg
          let r := collect_batch p.1 ms
          ⟨msg :: r.batch, r.consumed + 1, r.ctx, p.2 ++ r.trace⟩

/-- The worker state threaded through the batch pipeline: `self.stats`,
`self.job_id`, and `self.states_context`. -/
structure WorkerState where
  stats : Stats
  job_id : Nat
  states_context : StatesContext
deriving DecidableEq

/-- Result of one `BaseStrategyWorker.work` tick. -/
structure WorkResult where
  worker : WorkerState
  trace : List Op
  finished : Bool
deriving DecidableEq

/-- `BaseStrategyWorker.work`: `collect_batch`, `states_context.fetch()`,
`process_batch(batch)`, `update_score.flush()`, `states_context.release()`,
the `strategy.finished()` check (reported via `finished`), then the stats
updates `last_consumed`, `last_consumption_run` (the `asctime()` value is
passed in as `now`), and `consumed_since_start += consumed`. -/
def work (strat : Strategy) (w : WorkerState) (msgs : List RawMessage) (now : String) :
    WorkResult :=
  let c := collect_batch w.states_context msgs
  let f := c.ctx.fetch
  let p := process_batch strat w.job_id w.stats c.batch
  let rel := f.1.release
  let stats1 := { p.2 with
    last_consumed := some c.consumed,
    last_consumption_run := some now,
    consumed_since_start := p.2.consumed_since_start + c.consumed }
  ⟨⟨stats1, w.job_id, rel.1⟩,
    c.trace ++ f.2 ++ p.1 ++ UpdateScoreStream.flush ++ rel.2,
    strat.finished⟩

/-- The lifecycle flags of the worker: the running state of the three
`LoopingCall` periodic tasks (`self.task`, `self._flush_states_task`,
`self._logging_task`) and of the reactor. -/
structure Lifecycle where
  work_task_running : Bool
  flush_states_task_running : Bool
  logging_task_running : Bool
  reactor_running : Bool
deriving DecidableEq

/-- `LoopingCall.stop` (external, twisted): stops a running call; calling
it on a call that is not running raises. -/
def loopingCallStop (running : Bool) : Except String Bool :=
  if running then Except.ok false
  else Except.error "Tried to stop a LoopingCall that was not running."

/-- `reactor.stop` (external, twisted): raises `RuntimeError` if the
reactor is not running. -/
def reactorStop (running : Bool) : Except String Bool :=
  if running then Except.ok false
  else Except.error "Can't stop reactor that isn't running."

/-- One guarded stop inside `stop_tasks`:
`if task.running: task.stop()`, recording `op` when the stop is issued. -/
def guarded_stop (running : Bool) (op : Op) : Except String (Bool × List Op) :=
  if running then (loopingCallStop running).map (fun b => (b, [op]))
  else Except.ok (running, [])

/-- `BaseStrategyWorker.stop_tasks`, with the possibility of a raising
`LoopingCall.stop` kept visible: stop the work task, the flush-states
task, and the logging task, each only if it is running. -/
def stop_tasksE (s : Lifecycle) : Except String (Lifecycle × List Op) := do
  let w ← guarded_stop s.work_task_running Op.stop_work_task
  let f ← guarded_stop s.flush_states_task_running Op.stop_flush_states_task
  let l ← guarded_stop s.logging_task_running Op.stop_logging_task
  Except.ok ({ s with
    work_task_running := w.1,
    flush_states_task_running := f.1,
    logging_task_running := l.1 }, w.2 ++ f.2 ++ l.2)

/-- The pure semantics of `BaseStrategyWorker.stop_tasks`: every task ends
up stopped, and a stop call is issued exactly for the tasks that were
running. -/
def stop_tasks (s : Lifecycle) : Lifecycle × List Op :=
  ({ s with
      work_task_running := false,
      flush_states_task_running := false,
      logging_task_running := false },
    (if s.work_task_running then [Op.stop_work_task] else [])
      ++ (if s.flush_states_task_running then [Op.stop_flush_states_task] else [])
      ++ (if s.logging_task_running then [Op.stop_logging_task] else []))

/-- `BaseStrategyWorker._perform_shutdown`: `flush_states()` (which calls
`states_context.flush`), `strategy.close()`, `manager.stop()`, close the
scoring-log producer, close the consumer. -/
def perform_shutdown : List Op :=
  [Op.states_flush, Op.strategy_close, Op.manager_stop,
   Op.producer_close, Op.consumer_close]

/-- `BaseStrategyWorker._stop_reactor`: `reactor.stop()` inside
`try ... except RuntimeError: pass`. -/
def stop_reactor (s : Lifecycle) : Lifecycle × List Op :=
  match reactorStop s.reactor_running with
  | Except.ok b => ({ s with reactor_running := b }, [Op.reactor_stop])
  | Except.error _ => (s, [])

/-- The full drain sequence reached from either trigger: `stop_tasks`
returns a `Deferred` whose callbacks are `_perform_shutdown` then
`_stop_reactor`, and `reactor.callLater(0, d.callback, None)` fires them
on the next reactor turn (no other handler can run in between, the tasks
being already stopped). -/
def drain (s : Lifecycle) : Lifecycle × List Op :=
  let t := stop_tasks s
  let r := stop_reactor t.1
  (r.1, t.2 ++ perform_shutdown ++ r.2)

/-- `BaseStrategyWorker._handle_shutdown`: the shutdown-signal handler
schedules exactly the drain sequence. -/
def handle_shutdown (s : Lifecycle) : Lifecycle × List Op := drain s

/-- A `LoopingCall` timer firing for the work task: the reactor invokes
the task's callable (`work`) only while the `LoopingCall` is running. -/
def timer_fire_work (s : Lifecycle) (strat : Strategy) (w : WorkerState)
    (msgs : List RawMessage) (now : String) : Option WorkResult :=
  if s.work_task_running then some (work strat w msgs now) else none

/-- Result of one work tick together with its lifecycle effect. -/
structure TickResult where
  worker : WorkerState
  lifecycle : Lifecycle
  trace : List Op
deriving DecidableEq

/-- One `work` tick including the finished check of
`BaseStrategyWorker.work`: when `strategy.finished()` is true, the drain
sequence is initiated. -/
def work_tick (strat : Strategy) (w : WorkerState) (lc : Lifecycle)
    (msgs : List RawMessage) (now : String) : TickResult :=
  let r := work strat w msgs now
  if r.finished then
    let d := drain lc
    ⟨r.worker, d.1, r.trace ++ d.2⟩
  else ⟨r.worker, lc, r.trace⟩

/-- Whether a trace contains a given operation. -/
def traceHas (tr : List Op) (op : Op) : Bool :=
  tr.any (fun o => decide (o = op))

/-- Whether an operation is an `update_cache` call whose argument covers
the request `r`. -/
def Op.updatesCacheFor (op : Op) (r : Request) : Bool :=
  match op with
  | Op.update_cache (Arg.one x) => decide (x = r)
  | Op.update_cache (Arg.many rs) => rs.any (fun x => decide (x = r))
  | _ => false

/-- Whether a trace contains an `update_cache` call covering `r`. -/
def coveredByUpdateCache (tr : List Op) (r : Request) : Bool :=
  tr.any (fun op => op.updatesCacheFor r)

/-- Whether a trace contains a `fetch` call whose fingerprint set contains
`fp`. -/
def fetchCovers (tr : List Op) (fp : FP) : Bool :=
  tr.any (fun op =>
    match op with
    | Op.fetch s => decide (fp ∈ s)
    | _ => false)

/-- Whether `process_batch` dispatches an event to a strategy handler
(rather than dropping it by the jid filter or routing it to
`on_unknown_message`). -/
def dispatched (job_id : Nat) : Event → Bool
  | Event.add_seeds _ => true
  | Event.page_crawled response => response.jid == some job_id
  | Event.links_extracted request _ => request.jid == some job_id
  | Event.request_error request _ => request.jid == some job_id
  | Event.offset _ _ => false
  | Event.unknown _ => false

/-- Whether the strategy handler that `process_batch` invokes for this
event raises (taking the jid filter and seed stamping into account). -/
def raisesOn (strat : Strategy) (job_id : Nat) : Event → Bool
  | Event.add_seeds seeds => strat.add_seeds_raises (seeds.map (stamp job_id))
  | Event.page_crawled response =>
      (response.jid == some job_id) && strat.page_crawled_raises response
  | Event.links_extracted request links =>
      (request.jid == some job_id) && strat.links_extracted_raises request links
  | Event.request_error request error =>
      (request.jid == some job_id) && strat.page_error_raises request error
  | Event.offset _ _ => false
  | Event.unknown _ => false

/-- The requests an event's handler passes to `update_cache` when it
completes: the stamped seeds, the response, the links, or the errored
request. -/
def writeSet (job_id : Nat) : Event → List Request
  | Event.add_seeds seeds => seeds.map (stamp job_id)
  | Event.page_crawled response => [response]
  | Event.links_extracted _ links => links
  | Event.request_error request _ => [request]
  | Event.offset _ _ => []
  | Event.unknown _ => []

/-- Whether the classification of an event in `collect_batch` completes
without raising: every request it enumerates carries a
`b'fingerprint'` key. -/
def classifyOk : Event → Bool
  | Event.add_seeds seeds => seeds.all (fun r => r.fingerprint.isSome)
  | Event.page_crawled response => response.fingerprint.isSome
  | Event.links_extracted request links =>
      request.fingerprint.isSome && links.all (fun r => r.fingerprint.isSome)
  | Event.request_error request _ => request.fingerprint.isSome
  | Event.offset _ _ => true
  | Event.unknown _ => true

/-- The fingerprint carried by an optional meta entry, as a list. -/
def fpList : Option FP → List FP
  | some fp => [fp]
  | none => []

/-- The fingerprints an event references, per tag: those of its seeds,
its response, its request, and its links. -/
def refFingerprints : Event → List FP
  | Event.add_seeds seeds => seeds.filterMap Request.fingerprint
  | Event.page_crawled response => fpList response.fingerprint
  | Event.links_extracted request links =>
      fpList request.fingerprint ++ links.filterMap Request.fingerprint
  | Event.request_error request _ => fpList request.fingerprint
  | Event.offset _ _ => []
  | Event.unknown _ => []

/-- A strategy whose handlers all return normally and whose crawl goal is
not reached. -/
def quietStrategy : Strategy :=
  ⟨fun _ => false, fun _ => false, fun _ _ => false, fun _ _ => false, false⟩

/-- A strategy whose handlers all return normally and whose crawl goal is
reached. -/
def finishedStrategy : Strategy :=
  ⟨fun _ => false, fun _ => false, fun _ _ => false, fun _ _ => false, true⟩

/-- A strategy whose handlers all raise. -/
def failingStrategy : Strategy :=
  ⟨fun _ => true, fun _ => true, fun _ _ => true, fun _ _ => true, false⟩

/-- The initial stats dict of `BaseStrategyWorker.__init__`. -/
def stats0 : Stats := ⟨0, 0, 0, 0, 0, none, none⟩

/-- An empty scratch state. -/
def ctx0 : StatesContext := ⟨[], ∅⟩

/-- A freshly initialized worker: zero counters, `job_id = 0`, empty
scratch state. -/
def worker0 : WorkerState := ⟨stats0, 0, ctx0⟩

/-- A lifecycle with all three periodic tasks and the reactor running. -/
def allRunning : Lifecycle := ⟨true, true, true, true⟩

/-- A lifecycle with everything stopped. -/
def allStopped : Lifecycle := ⟨false, false, false, false⟩

/-- A request with fingerprint 1 and a jid matching `worker0`. -/
def reqA : Request := ⟨some 1, some 0, "http://a.example/"⟩

/-- A link with fingerprint 2 and a jid matching `worker0`. -/
def linkC : Request := ⟨some 2, some 0, "http://c.example/"⟩

/-- A response with fingerprint 3 and a jid matching `worker0`. -/
def respB : Request := ⟨some 3, some 0, "http://b.example/"⟩

/-- A request with a jid matching `worker0` but no `b'fingerprint'` key in
its meta. -/
def reqNoFp : Request := ⟨none, some 0, "http://nofp.example/"⟩

/-- A link with fingerprint 2 and a jid matching `worker0`. -/
def linkD : Request := ⟨some 2, some 0, "http://d.example/"⟩

lemma coveredByUpdateCache_append (t1 t2 : List Op) (r : Request) :
    coveredByUpdateCache (t1 ++ t2) r =
      (coveredByUpdateCache t1 r || coveredByUpdateCache t2 r) := by
  simp [coveredByUpdateCache, List.any_append]

lemma traceHas_append (t1 t2 : List Op) (op : Op) :
    traceHas (t1 ++ t2) op = (traceHas t1 op || traceHas t2 op) := by
  simp [traceHas, List.any_append]

lemma updatesCacheFor_many (rs : List Request) (r : Request) (hr : r ∈ rs) :
    (Op.update_cache (Arg.many rs)).updatesCacheFor r = true := by
  simp only [Op.updatesCacheFor]
  exact List.any_eq_true.mpr ⟨r, hr, by simp⟩

lemma updatesCacheFor_one (r : Request) :
    (Op.update_cache (Arg.one r)).updatesCacheFor r = true := by
  simp [Op.updatesCacheFor]

lemma coveredByUpdateCache_of_mem (tr : List Op) (op : Op) (r : Request)
    (hop : op ∈ tr) (h : op.updatesCacheFor r = true) :
    coveredByUpdateCache tr r = true :=
  List.any_eq_true.mpr ⟨op, hop, h⟩

/-- A dispatched, non-raising event's handler issues an `update_cache`
covering every request of the event's write-set. -/
lemma covered_in_event (strat : Strategy) (job_id : Nat) (stats : Stats)
    (e : Event) (r : Request)
    (hd : dispatched job_id e = true)
    (hr : raisesOn strat job_id e = false)
    (hw : r ∈ writeSet job_id e) :
    coveredByUpdateCache (process_event strat job_id stats e).1 r = true := by
  cases e with
  | add_seeds seeds =>
      simp only [raisesOn] at hr
      simp only [writeSet] at hw
      simp only [process_event, on_add_seeds, hr, if_false]
      exact coveredByUpdateCache_of_mem _ _ r (by simp) (updatesCacheFor_many _ r hw)
  | page_crawled response =>
      simp only [dispatched] at hd
      simp only [raisesOn, hd, Bool.true_and] at hr
      simp only [writeSet, List.mem_singleton] at hw
      subst hw
      simp only [process_event, hd, if_true, on_page_crawled, hr, if_false]
      exact coveredByUpdateCache_of_mem _ _ r (by simp) (updatesCacheFor_one r)
  | links_extracted request links =>
      simp only [dispatched] at hd
      simp only [raisesOn, hd, Bool.true_and] at hr
      simp only [writeSet] at hw
      simp only [process_event, hd, if_true, on_links_extracted, hr, if_false]
      exact coveredByUpdateCache_of_mem _ _ r (by simp) (updatesCacheFor_many _ r hw)
  | request_error request error =>
      simp only [dispatched] at hd
      simp only [raisesOn, hd, Bool.true_and] at hr
      simp only [writeSet, List.mem_singleton] at hw
      subst hw
      simp only [process_event, hd, if_true, on_request_error, hr, if_false]
      exact coveredByUpdateCache_of_mem _ _ r (by simp) (updatesCacheFor_one r)
  | offset p o => simp [dispatched] at hd
  | unknown tag => simp [dispatched] at hd

/-- Lifting `covered_in_event` over a whole batch. -/
lemma covered_in_process (strat : Strategy) (job_id : Nat) (stats : Stats)
    (batch : List Event) (e : Event) (r : Request)
    (he : e ∈ batch)
    (hd : dispatched job_id e = true)
    (hr : raisesOn strat job_id e = false)
    (hw : r ∈ writeSet job_id e) :
    coveredByUpdateCache (process_batch strat job_id stats batch).1 r = true := by
  induction batch generalizing stats with
  | nil => cases he
  | cons a rest ih =>
      rw [process_batch]
      rw [coveredByUpdateCache_append]
      rcases List.mem_cons.mp he with rfl | hmem
      · rw [covered_in_event strat job_id stats e r hd hr hw]
        simp
      · rw [ih (process_event strat job_id stats a).2 hmem]
        simp

/-- Classification never removes fingerprints from the scratch set. -/
lemma to_fetch_many_mono (ctx : StatesContext) (rs : List Request) (c2 : StatesContext)
    (h : ctx.to_fetch_many rs = Except.ok c2) (fp : FP)
    (hm : fp ∈ ctx.fingerprints) : fp ∈ c2.fingerprints := by
  unfold StatesContext.to_fetch_many at h
  split at h
  · cases h
    simp [Finset.mem_union, hm]
  · cases h

lemma to_fetch_one_mono (ctx : StatesContext) (r : Request) (c2 : StatesContext)
    (h : ctx.to_fetch_one r = Except.ok c2) (fp : FP)
    (hm : fp ∈ ctx.fingerprints) : fp ∈ c2.fingerprints := by
  unfold StatesContext.to_fetch_one at h
  split at h
  · cases h
    simp [Finset.mem_insert, hm]
  · cases h

lemma classify_message_mono (ctx : StatesContext) (e : Event) (fp : FP)
    (hm : fp ∈ ctx.fingerprints) :
    fp ∈ (classify_message ctx e).1.fingerprints := by
  cases e with
  | add_seeds seeds =>
      simp only [classify_message]
      cases h : ctx.to_fetch_many seeds with
      | ok c => exact to_fetch_many_mono ctx seeds c h fp hm
      | error u => exact hm
  | page_crawled response =>
      simp only [classify_message]
      cases h : ctx.to_fetch_one response with
      | ok c => exact to_fetch_one_mono ctx response c h fp hm
      | error u => exact hm
  | links_extracted request links =>
      simp only [classify_message]
      cases h : ctx.to_fetch_one request with
      | ok c1 =>
          have h1 : fp ∈ c1.fingerprints := to_fetch_one_mono ctx request c1 h fp hm
          show fp ∈ (catch_classify c1 (c1.to_fetch_many links)).1.fingerprints
          cases h2 : c1.to_fetch_many links with
          | ok c2 =>
              simp only [catch_classify]
              exact to_fetch_many_mono c1 links c2 h2 fp h1
          | error u => exact h1
      | error u => exact hm
  | request_error request error =>
      simp only [classify_message]
      cases h : ctx.to_fetch_one request with
      | ok c => exact to_fetch_one_mono ctx request c h fp hm
      | error u => exact hm
  | offset p o => exact hm
  | unknown tag => exact hm

/-- When classification of an event runs without raising, every
fingerprint the event references ends up in the scratch set. -/
lemma classify_message_covers (ctx : StatesContext) (e : Event) (fp : FP)
    (hok : classifyOk e = true) (hfp : fp ∈ refFingerprints e) :
    fp ∈ (classify_message ctx e).1.fingerprints := by
  cases e with
  | add_seeds seeds =>
      simp only [classifyOk] at hok
      simp only [refFingerprints] at hfp
      simp only [classify_message, StatesContext.to_fetch_many, hok, if_true,
        catch_classify]
      simp only [Finset.mem_union, List.mem_toFinset]
      exact Or.inr hfp
  | page_crawled response =>
      simp only [classifyOk] at hok
      simp only [refFingerprints] at hfp
      rcases Option.isSome_iff_exists.mp hok with ⟨fp0, h0⟩
      rw [h0] at hfp
      simp only [fpList, List.mem_singleton] at hfp
      subst hfp
      simp [classify_message, StatesContext.to_fetch_one, h0, catch_classify]
  | links_extracted request links =>
      simp only [classifyOk, Bool.and_eq_true] at hok
      obtain ⟨hok1, hok2⟩ := hok
      simp only [refFingerprints] at hfp
      rcases Option.isSome_iff_exists.mp hok1 with ⟨fp0, h0⟩
      rw [h0] at hfp
      simp only [classify_message, StatesContext.to_fetch_one, h0]
      simp only [StatesContext.to_fetch_many, hok2, if_true, catch_classify]
      simp only [Finset.mem_union, Finset.mem_insert, List.mem_toFinset]
      rcases List.mem_append.mp hfp with h1 | h2
      · simp only [fpList, List.mem_singleton] at h1
        exact Or.inl (Or.inl h1)
      · exact Or.inr h2
  | request_error request error =>
      simp only [classifyOk] at hok
      simp only [refFingerprints] at hfp
      rcases Option.isSome_iff_exists.mp hok with ⟨fp0, h0⟩
      rw [h0] at hfp
      simp only [fpList, List.mem_singleton] at hfp
      subst hfp
      simp [classify_message, StatesContext.to_fetch_one, h0, catch_classify]
  | offset p o => cases hfp
  | unknown tag => cases hfp

/-- Collection never removes fingerprints from the scratch set. -/
lemma collect_batch_mono (msgs : List RawMessage) (ctx : StatesContext) (fp : FP)
    (hm : fp ∈ ctx.fingerprints) :
    fp ∈ (collect_batch ctx msgs).ctx.fingerprints := by
  induction msgs generalizing ctx with
  | nil => exact hm
  | cons m ms ih =>
      rw [collect_batch]
      cases m with
      | malformed bs => exact ih ctx hm
      | wellFormed msg =>
          exact ih (classify_message ctx msg).1 (classify_message_mono ctx msg fp hm)

/-- Every fingerprint referenced by a collected event whose classification
did not raise is in the scratch set handed to the batch `fetch`. -/
lemma collect_batch_covers (msgs : List RawMessage) (ctx : StatesContext)
    (e : Event) (fp : FP)
    (he : e ∈ (collect_batch ctx msgs).batch)
    (hok : classifyOk e = true) (hfp : fp ∈ refFingerprints e) :
    fp ∈ (collect_batch ctx msgs).ctx.fingerprints := by
  induction msgs generalizing ctx with
  | nil => cases he
  | cons m ms ih =>
      rw [collect_batch] at he ⊢
      cases m with
      | malformed bs => exact ih ctx he
      | wellFormed msg =>
          rcases List.mem_cons.mp he with rfl | hmem
          · exact collect_batch_mono ms (classify_message ctx e).1 fp
              (classify_message_covers ctx e fp hok hfp)
          · exact ih (classify_message ctx msg).1 hmem

/-- `consumed` is always the full raw-message count, malformed messages
included (the increment sits in a `finally`). -/
lemma collect_batch_consumed (msgs : List RawMessage) (ctx : StatesContext) :
    (collect_batch ctx msgs).consumed = msgs.length := by
  induction msgs generalizing ctx with
  | nil => rfl
  | cons m ms ih =>
      rw [collect_batch]
      cases m with
      | malformed bs => simp [decode, ih ctx]
      | wellFormed msg => simp [decode, ih (classify_message ctx msg).1]

lemma process_event_css (strat : Strategy) (job_id : Nat) (stats : Stats) (e : Event) :
    (process_event strat job_id stats e).2.consumed_since_start =
      stats.consumed_since_start := by
  cases e with
  | add_seeds seeds =>
      simp only [process_event]
      split <;> rfl
  | page_crawled response =>
      simp only [process_event]
      split
      · split <;> rfl
      · rfl
  | links_extracted request links =>
      simp only [process_event]
      split
      · split <;> rfl
      · rfl
  | request_error request error =>
      simp only [process_event]
      split
      · split <;> rfl
      · rfl
  | offset p o => rfl
  | unknown tag => rfl

/-- `process_batch` never touches `consumed_since_start`. -/
lemma process_batch_css (strat : Strategy) (job_id : Nat) (stats : Stats)
    (batch : List Event) :
    (process_batch strat job_id stats batch).2.consumed_since_start =
      stats.consumed_since_start := by
  induction batch generalizing stats with
  | nil => rfl
  | cons e rest ih =>
      rw [process_batch]
      rw [ih (process_event strat job_id stats e).2]
      exact process_event_css strat job_id stats e

/-- Claim C1 is false as stated: on a batch containing a single
`links_extracted` event with a matching jid, the request argument is passed
to `strategy.links_extracted` yet no `update_cache` covering it has been
performed by the time `release()` completes — `on_links_extracted` writes
back only the links, and `release` writes back only the (empty) touched
list. -/
theorem claim1_counterexample :
    traceHas (work quietStrategy worker0
        [RawMessage.wellFormed (Event.links_extracted reqA [linkC])] "t").trace
      (Op.strategy_links_extracted reqA [linkC]) = true ∧
    coveredByUpdateCache (work quietStrategy worker0
        [RawMessage.wellFormed (Event.links_extracted reqA [linkC])] "t").trace
      reqA = false := by
  constructor <;> decide

/-- Claim C1 amended: for every event of the batch that passes the jid
filter and whose strategy handler does not raise, every request of the
event's write-set — the stamped seeds, the response, the links, the errored
request, but not the request argument of `links_extracted` — is covered by
an `update_cache` performed before the tick (and hence its `release()`)
completes. -/
theorem claim1_amended (strat : Strategy) (w : WorkerState)
    (msgs : List RawMessage) (now : String) (e : Event) (r : Request)
    (he : e ∈ (collect_batch w.states_context msgs).batch)
    (hd : dispatched w.job_id e = true)
    (hr : raisesOn strat w.job_id e = false)
    (hw : r ∈ writeSet w.job_id e) :
    coveredByUpdateCache (work strat w msgs now).trace r = true := by
  have hp : coveredByUpdateCache
      (process_batch strat w.job_id w.stats (collect_batch w.states_context msgs).batch).1
      r = true :=
    covered_in_process strat w.job_id w.stats _ e r he hd hr hw
  simp only [work, StatesContext.fetch, StatesContext.release, UpdateScoreStream.flush]
  rw [coveredByUpdateCache_append, coveredByUpdateCache_append,
    coveredByUpdateCache_append, coveredByUpdateCache_append, hp]
  simp

/-- Witness for `claim1_amended` at a concrete input: a matching-jid
`page_crawled` event whose response is then covered by `update_cache`. -/
theorem claim1_witness :
    dispatched worker0.job_id (Event.page_crawled respB) = true ∧
    respB ∈ writeSet worker0.job_id (Event.page_crawled respB) ∧
    coveredByUpdateCache (work quietStrategy worker0
        [RawMessage.wellFormed (Event.page_crawled respB)] "t").trace respB = true :=
  ⟨by decide, by decide,
    claim1_amended quietStrategy worker0
      [RawMessage.wellFormed (Event.page_crawled respB)] "t"
      (Event.page_crawled respB) respB (by decide) (by decide) (by decide) (by decide)⟩

/-- Claim C2 is false as stated: when classification of an event raises in
`collect_batch` (here: the request of a `links_extracted` event has no
`b'fingerprint'` key, so `to_fetch` raises `KeyError` before the links are
enrolled), the event is still appended to the batch and dispatched, yet the
fingerprint 2 referenced by its link was never added to `pending_fetch` and
is missing from the batch's `fetch`. -/
theorem claim2_counterexample :
    (2 : FP) ∈ refFingerprints (Event.links_extracted reqNoFp [linkD]) ∧
    traceHas (work quietStrategy worker0
        [RawMessage.wellFormed (Event.links_extracted reqNoFp [linkD])] "t").trace
      (Op.strategy_links_extracted reqNoFp [linkD]) = true ∧
    fetchCovers (work quietStrategy worker0
        [RawMessage.wellFormed (Event.links_extracted reqNoFp [linkD])] "t").trace
      2 = false := by
  refine ⟨by decide, by decide, by decide⟩

/-- Claim C2 amended: for every event of the batch whose classification in
`collect_batch` raised no exception, all fingerprints it references were
added to `pending_fetch` during collection and are contained in the set
passed to the single `states_context.fetch()` call, which precedes all of
`process_batch`'s dispatches in the tick's trace; when classification
raises, the event is still dispatched but its fingerprints may have been
collected only partially. -/
theorem claim2_amended (strat : Strategy) (w : WorkerState)
    (msgs : List RawMessage) (now : String) (e : Event) (fp : FP)
    (he : e ∈ (collect_batch w.states_context msgs).batch)
    (hok : classifyOk e = true)
    (hfp : fp ∈ refFingerprints e) :
    fp ∈ (collect_batch w.states_context msgs).ctx.fingerprints ∧
    (work strat w msgs now).trace =
      (collect_batch w.states_context msgs).trace
        ++ Op.fetch (collect_batch w.states_context msgs).ctx.fingerprints
          :: ((process_batch strat w.job_id w.stats
                (collect_batch w.states_context msgs).batch).1
            ++ [Op.update_cache (Arg.many (collect_batch w.states_context msgs).ctx.requests)]) := by
  constructor
  · exact collect_batch_covers msgs w.states_context e fp he hok hfp
  · simp [work, StatesContext.fetch, StatesContext.release, UpdateScoreStream.flush]

/-- Witness for `claim2_amended` at a concrete input: a well-classified
`links_extracted` event whose link fingerprint 2 reaches the fetch set. -/
theorem claim2_witness :
    (2 : FP) ∈ (collect_batch worker0.states_context
      [RawMessage.wellFormed (Event.links_extracted reqA [linkC])]).ctx.fingerprints ∧
    (work quietStrategy worker0
        [RawMessage.wellFormed (Event.links_extracted reqA [linkC])] "t").trace =
      (collect_batch worker0.states_context
          [RawMessage.wellFormed (Event.links_extracted reqA [linkC])]).trace
        ++ Op.fetch (collect_batch worker0.states_context
              [RawMessage.wellFormed (Event.links_extracted reqA [linkC])]).ctx.fingerprints
          :: ((process_batch quietStrategy worker0.job_id worker0.stats
                (collect_batch worker0.states_context
                  [RawMessage.wellFormed (Event.links_extracted reqA [linkC])]).batch).1
            ++ [Op.update_cache (Arg.many (collect_batch worker0.states_context
                  [RawMessage.wellFormed (Event.links_extracted reqA [linkC])]).ctx.requests)]) :=
  claim2_amended quietStrategy worker0
    [RawMessage.wellFormed (Event.links_extracted reqA [linkC])] "t"
    (Event.links_extracted reqA [linkC]) 2 (by decide) (by decide) (by decide)

/-- Claim C7 is false in its parenthetical "release() resets both":
`StatesContext.release` clears only the touched list and leaves the
pending-fetch fingerprint set untouched, as this nonempty set shows. -/
theorem claim7_counterexample :
    ¬ ((StatesContext.release ⟨[], {1}⟩).1.fingerprints = (∅ : Finset FP)) := by
  decide

/-- Claim C7 amended: between any two consecutive batches of `work()` the
scratch state is empty — after one full work tick (from any starting
scratch state, in particular the empty one) both fields are empty again —
but the resets are split: `fetch()` clears `pending_fetch` and `release()`
clears `touched` while leaving `pending_fetch` unchanged. -/
theorem claim7_amended (strat : Strategy) (w : WorkerState)
    (msgs : List RawMessage) (now : String) (ctx : StatesContext) :
    (work strat w msgs now).worker.states_context = ⟨[], ∅⟩ ∧
    (StatesContext.release ctx).1 = ⟨[], ctx.fingerprints⟩ ∧
    (StatesContext.fetch ctx).1 = ⟨ctx.requests, ∅⟩ := by
  refine ⟨?_, rfl, rfl⟩
  simp [work, StatesContext.fetch, StatesContext.release]

/-- Claim C3: in `process_batch`, an event of type `page_crawled`,
`links_extracted` or `request_error` whose carried `meta[b'jid']` differs
from the worker's current `job_id` produces no collaborator call (in
particular the strategy handler is not invoked) and leaves every stats
counter unchanged, while every `add_seeds` event reaches
`strategy.add_seeds` with each seed's jid stamped to the current `job_id`
beforehand. -/
theorem claim3 (strat : Strategy) (job_id : Nat) (stats : Stats) (r : Request)
    (links : List Request) (err : String) (seeds : List Request) (j : Nat)
    (hj : r.jid = some j) (hne : j ≠ job_id) :
    process_batch strat job_id stats [Event.page_crawled r] = ([], stats) ∧
    process_batch strat job_id stats [Event.links_extracted r links] = ([], stats) ∧
    process_batch strat job_id stats [Event.request_error r err] = ([], stats) ∧
    traceHas (process_batch strat job_id stats [Event.add_seeds seeds]).1
      (Op.strategy_add_seeds (seeds.map (stamp job_id))) = true ∧
    (seeds.map (stamp job_id)).all (fun s => s.jid == some job_id) = true := by
  have hbeq : (r.jid == some job_id) = false := by
    rw [hj]
    simp [hne]
  refine ⟨?_, ?_, ?_, ?_, ?_⟩
  · simp [process_batch, process_event, hbeq]
  · simp [process_batch, process_event, hbeq]
  · simp [process_batch, process_event, hbeq]
  · simp only [process_batch, process_event, on_add_seeds]
    split
    · simp [traceHas, List.any_append]
    · simp [traceHas, List.any_append]
  · simp [List.all_eq_true, stamp]

/-- Witness for `claim3` at a concrete input: a stale response (jid 6,
worker job id 0) is dropped with the stats dict unchanged, and a seed
batch is stamped and dispatched. -/
theorem claim3_witness :
    process_batch quietStrategy 0 stats0
      [Event.page_crawled ⟨some 7, some 6, "http://stale.example/"⟩] = ([], stats0) ∧
    process_batch quietStrategy 0 stats0
      [Event.links_extracted ⟨some 7, some 6, "http://stale.example/"⟩ [linkC]] = ([], stats0) ∧
    process_batch quietStrategy 0 stats0
      [Event.request_error ⟨some 7, some 6, "http://stale.example/"⟩ "err"] = ([], stats0) ∧
    traceHas (process_batch quietStrategy 0 stats0 [Event.add_seeds [reqA]]).1
      (Op.strategy_add_seeds ([reqA].map (stamp 0))) = true ∧
    ([reqA].map (stamp 0)).all (fun s => s.jid == some 0) = true :=
  claim3 quietStrategy 0 stats0 ⟨some 7, some 6, "http://stale.example/"⟩
    [linkC] "err" [reqA] 6 rfl (by decide)

/-- Claim C4: a raw message on which decode raises is logged with a hex
dump of its bytes, is not appended to the batch (so it is never
dispatched), still counts as consumed, and leaves the collection of the
remaining messages untouched; and a full `work` tick increments
`consumed_since_start` by the full raw-message count, malformed messages
included. -/
theorem claim4 (ctx : StatesContext) (bs : List Nat) (ms : List RawMessage)
    (strat : Strategy) (w : WorkerState) (msgs : List RawMessage) (now : String) :
    (collect_batch ctx (RawMessage.malformed bs :: ms)).batch =
      (collect_batch ctx ms).batch ∧
    (collect_batch ctx (RawMessage.malformed bs :: ms)).consumed =
      (collect_batch ctx ms).consumed + 1 ∧
    (collect_batch ctx (RawMessage.malformed bs :: ms)).ctx =
      (collect_batch ctx ms).ctx ∧
    (collect_batch ctx (RawMessage.malformed bs :: ms)).trace =
      Op.log_decode_error (hexlify bs) :: (collect_batch ctx ms).trace ∧
    (work strat w msgs now).worker.stats.consumed_since_start =
      w.stats.consumed_since_start + msgs.length := by
  refine ⟨rfl, rfl, rfl, rfl, ?_⟩
  simp only [work]
  rw [process_batch_css strat w.job_id w.stats
    (collect_batch w.states_context msgs).batch]
  rw [collect_batch_consumed msgs w.states_context]

/-- Claim C5: a strategy handler raising on one event of the batch is
caught and logged (`Op.log_exception` appears in that event's trace) and
`process_batch` continues with the remaining events — its result on
`e :: rest` is always the event's own trace followed by the untouched
processing of `rest`, for raising and non-raising events alike, and no
exception propagates. -/
theorem claim5 (strat : Strategy) (job_id : Nat) (stats : Stats)
    (e : Event) (rest : List Event)
    (hr : raisesOn strat job_id e = true) :
    (process_batch strat job_id stats (e :: rest)).1 =
      (process_event strat job_id stats e).1
        ++ (process_batch strat job_id (process_event strat job_id stats e).2 rest).1 ∧
    (process_batch strat job_id stats (e :: rest)).2 =
      (process_batch strat job_id (process_event strat job_id stats e).2 rest).2 ∧
    traceHas (process_event strat job_id stats e).1 Op.log_exception = true := by
  refine ⟨rfl, rfl, ?_⟩
  cases e with
  | add_seeds seeds =>
      simp only [raisesOn] at hr
      simp only [process_event, on_add_seeds, hr, if_true]
      simp [traceHas, List.any_append]
  | page_crawled response =>
      simp only [raisesOn, Bool.and_eq_true] at hr
      obtain ⟨h1, h2⟩ := hr
      simp only [process_event, h1, if_true, on_page_crawled, h2]
      simp [traceHas, List.any_append]
  | links_extracted request links =>
      simp only [raisesOn, Bool.and_eq_true] at hr
      obtain ⟨h1, h2⟩ := hr
      simp only [process_event, h1, if_true, on_links_extracted, h2]
      simp [traceHas, List.any_append]
  | request_error request error =>
      simp only [raisesOn, Bool.and_eq_true] at hr
      obtain ⟨h1, h2⟩ := hr
      simp only [process_event, h1, if_true, on_request_error, h2]
      simp [traceHas, List.any_append]
  | offset p o => cases hr
  | unknown tag => cases hr

/-- Witness for `claim5` at a concrete input: a strategy raising on
`page_crawled` has its exception logged and the following seed event of the
same batch still processed. -/
theorem claim5_witness :
    raisesOn failingStrategy 0 (Event.page_crawled respB) = true ∧
    (process_batch failingStrategy 0 stats0
        [Event.page_crawled respB, Event.add_seeds [reqA]]).1 =
      (process_event failingStrategy 0 stats0 (Event.page_crawled respB)).1
        ++ (process_batch failingStrategy 0
            (process_event failingStrategy 0 stats0 (Event.page_crawled respB)).2
            [Event.add_seeds [reqA]]).1 ∧
    traceHas (process_event failingStrategy 0 stats0
        (Event.page_crawled respB)).1 Op.log_exception = true :=
  ⟨by decide,
    (claim5 failingStrategy 0 stats0 (Event.page_crawled respB)
      [Event.add_seeds [reqA]] (by decide)).1,
    (claim5 failingStrategy 0 stats0 (Event.page_crawled respB)
      [Event.add_seeds [reqA]] (by decide)).2.2⟩

/-- Claim C6: `UpdateScoreStream.send(request, score, dont_queue)` hands
the encoder exactly the tuple `(request, score, schedule)` with
`schedule = not dont_queue` and pushes exactly one encoded record to the
scoring-log producer under routing key `None`; with the Python defaults
`score=1.0`, `dont_queue=False` the tuple is `(request, 1, true)`; and
`UpdateScoreStream.flush()` performs no operation. -/
theorem claim6 (request : Request) (score : Rat) (dont_queue : Bool) :
    UpdateScoreStream.send request score dont_queue =
      [Op.producer_send none (encode_update_score request score (!dont_queue))] ∧
    encode_update_score request score (!dont_queue) = (request, score, !dont_queue) ∧
    UpdateScoreStream.send_default request =
      [Op.producer_send none (request, 1, true)] ∧
    UpdateScoreStream.flush = [] :=
  ⟨rfl, rfl, rfl, rfl⟩

/-- Claim C10: an event of type `page_crawled`, `links_extracted` or
`request_error` whose request (or response) meta carries no `b'jid'` key at
all is dropped by `process_batch` exactly like a mismatched jid — no
collaborator call, no stats change — even though its fingerprint was
still enrolled in `pending_fetch` during collection. -/
theorem claim10 (strat : Strategy) (job_id : Nat) (stats : Stats) (r : Request)
    (links : List Request) (err : String) (ctx : StatesContext) (fp : FP)
    (hj : r.jid = none) (hfp : r.fingerprint = some fp) :
    process_batch strat job_id stats [Event.page_crawled r] = ([], stats) ∧
    process_batch strat job_id stats [Event.links_extracted r links] = ([], stats) ∧
    process_batch strat job_id stats [Event.request_error r err] = ([], stats) ∧
    fp ∈ (classify_message ctx (Event.page_crawled r)).1.fingerprints ∧
    fp ∈ (classify_message ctx (Event.links_extracted r links)).1.fingerprints ∧
    fp ∈ (classify_message ctx (Event.request_error r err)).1.fingerprints := by
  have hbeq : (r.jid == some job_id) = false := by
    rw [hj]
    rfl
  have hone : ctx.to_fetch_one r =
      Except.ok { ctx with fingerprints := insert fp ctx.fingerprints } := by
    simp [StatesContext.to_fetch_one, hfp]
  refine ⟨?_, ?_, ?_, ?_, ?_, ?_⟩
  · simp [process_batch, process_event, hbeq]
  · simp [process_batch, process_event, hbeq]
  · simp [process_batch, process_event, hbeq]
  · simp [classify_message, hone, catch_classify]
  · simp only [classify_message]
    rw [hone]
    show fp ∈ (catch_classify { ctx with fingerprints := insert fp ctx.fingerprints }
      (StatesContext.to_fetch_many
        { ctx with fingerprints := insert fp ctx.fingerprints } links)).1.fingerprints
    cases h2 : StatesContext.to_fetch_many
        { ctx with fingerprints := insert fp ctx.fingerprints } links with
    | ok c2 =>
        simp only [catch_classify]
        exact to_fetch_many_mono _ links c2 h2 fp (Finset.mem_insert_self fp _)
    | error u =>
        simp only [catch_classify]
        exact Finset.mem_insert_self fp _
  · simp [classify_message, hone, catch_classify]

/-- Witness for `claim10` at a concrete input: a jid-less request with
fingerprint 9. -/
theorem claim10_witness :
    process_batch quietStrategy 0 stats0
      [Event.page_crawled ⟨some 9, none, "http://nojid.example/"⟩] = ([], stats0) ∧
    (9 : FP) ∈ (classify_message ctx0
      (Event.page_crawled ⟨some 9, none, "http://nojid.example/"⟩)).1.fingerprints :=
  ⟨(claim10 quietStrategy 0 stats0 ⟨some 9, none, "http://nojid.example/"⟩
      [linkC] "err" ctx0 9 rfl rfl).1,
    (claim10 quietStrategy 0 stats0 ⟨some 9, none, "http://nojid.example/"⟩
      [linkC] "err" ctx0 9 rfl rfl).2.2.2.1⟩

lemma work_finished (strat : Strategy) (w : WorkerState)
    (msgs : List RawMessage) (now : String) :
    (work strat w msgs now).finished = strat.finished := rfl

lemma drain_work_task_stopped (s : Lifecycle) :
    (drain s).1.work_task_running = false := by
  rcases s with ⟨a, b, c, d⟩
  cases d <;> rfl

/-- Claim C8: from a fully running worker, draining — whether initiated by
`strategy.finished()` after a work tick or by a shutdown signal (both run
exactly `drain`) — performs, in this strict order: stop the work task,
stop the flush-states task, stop the status-log task, `flush_states()`,
`strategy.close()`, `manager.stop()`, close the scoring-log producer,
close the consumer, stop the reactor; and once draining has run, a timer
firing no longer invokes `work`. -/
theorem claim8 (lc : Lifecycle) (strat : Strategy) (w : WorkerState)
    (msgs : List RawMessage) (now : String) (s : Lifecycle)
    (hlc : lc = allRunning) (hfin : strat.finished = true) :
    drain lc = (allStopped,
      [Op.stop_work_task, Op.stop_flush_states_task, Op.stop_logging_task,
       Op.states_flush, Op.strategy_close, Op.manager_stop,
       Op.producer_close, Op.consumer_close, Op.reactor_stop]) ∧
    (work_tick strat w lc msgs now).lifecycle = (drain lc).1 ∧
    (work_tick strat w lc msgs now).trace =
      (work strat w msgs now).trace ++ (drain lc).2 ∧
    timer_fire_work (drain s).1 strat w msgs now = none := by
  subst hlc
  refine ⟨by decide, ?_, ?_, ?_⟩
  · simp only [work_tick, work_finished, hfin, if_true]
  · simp only [work_tick, work_finished, hfin, if_true]
  · simp only [timer_fire_work, drain_work_task_stopped s, Bool.false_eq_true,
      if_false]

/-- Witness for `claim8` at a concrete input: all tasks running, a strategy
that declares the crawl finished, an empty poll. -/
theorem claim8_witness :
    drain allRunning = (allStopped,
      [Op.stop_work_task, Op.stop_flush_states_task, Op.stop_logging_task,
       Op.states_flush, Op.strategy_close, Op.manager_stop,
       Op.producer_close, Op.consumer_close, Op.reactor_stop]) ∧
    (work_tick finishedStrategy worker0 allRunning [] "t").lifecycle =
      (drain allRunning).1 ∧
    (work_tick finishedStrategy worker0 allRunning [] "t").trace =
      (work finishedStrategy worker0 [] "t").trace ++ (drain allRunning).2 ∧
    timer_fire_work (drain allRunning).1 finishedStrategy worker0 [] "t" = none :=
  claim8 allRunning finishedStrategy worker0 [] "t" allRunning rfl rfl

/-- Claim C9: shutdown is idempotent — `stop_tasks` never raises, because
each `LoopingCall.stop` is guarded by `task.running` (so tasks that are
already stopped are silently tolerated), and running the drain a second
time after a completed drain leaves the worker lifecycle in the same final
state. -/
theorem claim9 (s : Lifecycle) :
    stop_tasksE s = Except.ok (stop_tasks s) ∧
    (drain (drain s).1).1 = (drain s).1 := by
  rcases s with ⟨a, b, c, d⟩
  constructor
  · cases a <;> cases b <;> cases c <;> rfl
  · cases d <;> rfl

end Frontera
